import Mathlib

/-!
Shallow embedding of the photo-upload pipeline in `photos/upload.go`:
the data model (`NewMediaItem`, batch-create request/response shapes),
the single-file upload `UploadFile`, the three-worker batch pipeline
`UploadFiles` (modelled as a small-step scheduler semantics), and the
commit step `Append` with its token lookup `findMediaItemByUploadToken`.
External effects (file system, HTTP transport, remote service) are
modelled by explicit outcome environments passed to the functions.
-/

namespace Gpup

/-- Data model: `photoslibrary.SimpleMediaItem` (the upload token field). -/
structure SimpleMediaItem where
  uploadToken : String
deriving DecidableEq, Repr

/-- Data model: `photoslibrary.NewMediaItem` (description plus staged blob). -/
structure NewMediaItem where
  description : String
  simpleMediaItem : SimpleMediaItem
deriving DecidableEq, Repr

/-- Data model: `photoslibrary.Album`, only the `Id` field is used. -/
structure Album where
  id : String
deriving DecidableEq, Repr

/-- Data model: `photoslibrary.Status` (code 0 = success). -/
structure Status where
  code : Int
  message : String
deriving DecidableEq, Repr

/-- Data model: `photoslibrary.NewMediaItemResult`, one per submitted item. -/
structure NewMediaItemResult where
  uploadToken : String
  status : Status
deriving DecidableEq, Repr

/-- Data model: `photoslibrary.BatchCreateMediaItemsRequest`. -/
structure BatchCreateMediaItemsRequest where
  albumId : String
  newMediaItems : List NewMediaItem
deriving DecidableEq, Repr

/-- Data model: `photoslibrary.BatchCreateMediaItemsResponse`. -/
structure BatchCreateMediaItemsResponse where
  newMediaItemResults : List NewMediaItemResult
deriving DecidableEq, Repr

/-- Go constant `uploadConcurrency = 3` in `upload.go`. -/
def uploadConcurrency : Nat := 3

/-- Go `path.Base` (slash-separated, platform independent): empty string
gives ".", trailing slashes are stripped, then everything after the last
slash is kept; a string of only slashes gives "/". -/
def pathBase (s : String) : String :=
  if s = "" then "."
  else
    let revStripped := s.data.reverse.dropWhile (fun c => c = '/')
    let baseChars := (revStripped.takeWhile (fun c => c ≠ '/')).reverse
    if baseChars = [] then "/" else String.mk baseChars

/-- Outcome environment for one `UploadFile` call: what the file system,
`http.NewRequest`, the transport (`client.Do`) and the response would do. -/
structure FileEnv where
  openErr : Option String
  reqErr : Option String
  doErr : Option String
  status : Int
  readErr : Option String
  body : String
deriving DecidableEq, Repr

/-- Resource events of one `UploadFile` call, in the order they happen
(deferred closes run before the function returns). -/
inductive Event where
  | openFile
  | recvResponse
  | closeBody
  | closeFile
deriving DecidableEq, Repr

/-- Return value and event trace of one `UploadFile` call.  `item` and
`err` mirror Go's two return values `(*photoslibrary.NewMediaItem, error)`. -/
structure UploadOutcome where
  item : Option NewMediaItem
  err : Option String
  events : List Event
deriving DecidableEq, Repr

/-- `UploadFile` from `upload.go`: open the file, build the POST request,
send it, read the body; non-200 status is an error carrying status and
body; on 200 the staged item has the base name as description and the
exact body as upload token.  `defer r.Close()` and `defer res.Body.Close()`
are reflected in the event trace. -/
def UploadFile (env : FileEnv) (filepath : String) : UploadOutcome :=
  match env.openErr with
  | some e =>
    { item := none
      err := some ("Could not open file " ++ filepath ++ ": " ++ e)
      events := [] }
  | none =>
    let filename := pathBase filepath
    match env.reqErr with
    | some e =>
      { item := none
        err := some ("Could not create a request for uploading file " ++ filepath ++ ": " ++ e)
        events := [Event.openFile, Event.closeFile] }
    | none =>
      match env.doErr with
      | some e =>
        { item := none
          err := some ("Could not send a request for uploading file " ++ filepath ++ ": " ++ e)
          events := [Event.openFile, Event.closeFile] }
      | none =>
        match env.readErr with
        | some e =>
          { item := none
            err := some ("Could not read the response body while uploading file " ++ filepath
                        ++ ": status=" ++ toString env.status ++ ", " ++ e)
            events := [Event.openFile, Event.recvResponse, Event.closeBody, Event.closeFile] }
        | none =>
          if env.status ≠ 200 then
            { item := none
              err := some ("Could not upload file " ++ filepath ++ ": status="
                          ++ toString env.status ++ ", body=" ++ env.body)
              events := [Event.openFile, Event.recvResponse, Event.closeBody, Event.closeFile] }
          else
            { item := some { description := filename
                             simpleMediaItem := { uploadToken := env.body } }
              err := none
              events := [Event.openFile, Event.recvResponse, Event.closeBody, Event.closeFile] }

/-- The staged item produced by a call of `UploadFile`, if it succeeded. -/
def uploadResult (env : String → FileEnv) (filepath : String) : Option NewMediaItem :=
  (UploadFile (env filepath) filepath).item

/-- `findMediaItemByUploadToken` from `upload.go`: linear scan returning
the first item whose token matches, `none` when no item matches. -/
def findMediaItemByUploadToken : List NewMediaItem → String → Option NewMediaItem
  | [], _ => none
  | mediaItem :: rest, uploadToken =>
    if mediaItem.simpleMediaItem.uploadToken = uploadToken then some mediaItem
    else findMediaItemByUploadToken rest uploadToken

/-- The batch-create request `Append` builds: all items, and the album id
when an album is given (Go leaves `AlbumId` as the zero string otherwise). -/
def appendRequest (album : Option Album) (mediaItems : List NewMediaItem) :
    BatchCreateMediaItemsRequest :=
  { albumId := match album with
      | some a => a.id
      | none => ""
    newMediaItems := mediaItems }

/-- The log line `Append` emits for one per-item result: nothing for code 0;
for a non-zero code, a "Skipped" line naming the matching item when the
token is found, otherwise an unattributed "Error while adding files" line. -/
def appendItemLog (mediaItems : List NewMediaItem) (result : NewMediaItemResult) :
    Option String :=
  if result.status.code ≠ 0 then
    some (match findMediaItemByUploadToken mediaItems result.uploadToken with
      | some mediaItem =>
        "Skipped " ++ mediaItem.description ++ ": " ++ result.status.message
          ++ " (" ++ toString result.status.code ++ ")"
      | none =>
        "Error while adding files: " ++ result.status.message
          ++ " (" ++ toString result.status.code ++ ")")
  else none

/-- `Append` from `upload.go`: one remote batch-create call (modelled by
`svc`); a failing call is returned as the error with no logs, a successful
call yields no error and one log line per non-zero per-item result. -/
def Append (svc : BatchCreateMediaItemsRequest → Except String BatchCreateMediaItemsResponse)
    (album : Option Album) (mediaItems : List NewMediaItem) :
    Option String × List String :=
  match svc (appendRequest album mediaItems) with
  | Except.error e => (some e, [])
  | Except.ok batch =>
    (none, batch.newMediaItemResults.filterMap (appendItemLog mediaItems))

/-- State of one worker goroutine of `UploadFiles`: waiting at the queue,
currently inside an `UploadFile` call for a path, or exited. -/
inductive WorkerState where
  | idle
  | busy (filepath : String)
  | done
deriving DecidableEq, Repr

/-- State of the `UploadFiles` pipeline: the remaining closed work queue
`uploadQueue`, the pool of workers (identity of a worker is immaterial, so
a multiset), and the collected results of `aggregateQueue` in publish
order. -/
structure PoolState where
  queue : List String
  workers : Multiset WorkerState
  results : List NewMediaItem
deriving DecidableEq

/-- One scheduling decision: some idle worker dequeues the next path, some
worker busy on `filepath` finishes its `UploadFile` call (publishing the
item on success, skipping the path on failure), or some idle worker sees
the closed empty queue and exits. -/
inductive SchedStep where
  | take
  | finish (filepath : String)
  | exitWorker
deriving DecidableEq, Repr

/-- Initial state of `UploadFiles filepaths`: the whole input is queued and
the queue closed before the `uploadConcurrency` workers start, no results. -/
def UploadFilesInit (filepaths : List String) : PoolState :=
  { queue := filepaths
    workers := Multiset.replicate uploadConcurrency WorkerState.idle
    results := [] }

/-- Small-step transition of the `UploadFiles` pipeline; `none` when the
scheduling decision is not enabled in the given state. -/
def UploadFilesStep (env : String → FileEnv) :
    SchedStep → PoolState → Option PoolState
  | SchedStep.take, s =>
    match s.queue with
    | [] => none
    | fp :: rest =>
      if WorkerState.idle ∈ s.workers then
        some { s with queue := rest
                      workers := WorkerState.busy fp ::ₘ s.workers.erase WorkerState.idle }
      else none
  | SchedStep.finish fp, s =>
    if WorkerState.busy fp ∈ s.workers then
      some { s with workers := WorkerState.idle ::ₘ s.workers.erase (WorkerState.busy fp)
                    results := s.results ++ (uploadResult env fp).toList }
    else none
  | SchedStep.exitWorker, s =>
    match s.queue with
    | [] =>
      if WorkerState.idle ∈ s.workers then
        some { s with workers := WorkerState.done ::ₘ s.workers.erase WorkerState.idle }
      else none
    | _ :: _ => none

/-- Run of the `UploadFiles` pipeline under a schedule: the sequence of
interleaved worker steps, applied left to right. -/
def UploadFilesRun (env : String → FileEnv) :
    List SchedStep → PoolState → Option PoolState
  | [], s => some s
  | st :: rest, s =>
    match UploadFilesStep env st s with
    | none => none
    | some s1 => UploadFilesRun env rest s1

/-- The paths whose `UploadFile` calls are currently in flight. -/
def busyPath : WorkerState → Option String
  | WorkerState.busy fp => some fp
  | _ => none

/-- Multiset of in-flight paths of a pipeline state. -/
def busyPaths (s : PoolState) : Multiset String :=
  s.workers.filterMap busyPath

/-- Number of `UploadFile` calls in flight in a pipeline state. -/
def inFlight (s : PoolState) : Nat :=
  Multiset.card (busyPaths s)

/-- The pipeline has terminated: every worker has exited, so
`workerGroup.Wait` has returned, `aggregateQueue` is closed and drained,
and `UploadFiles` returns `s.results`. -/
def Completed (s : PoolState) : Prop :=
  ∀ w ∈ s.workers, w = WorkerState.done

instance (s : PoolState) : Decidable (Completed s) := by
  unfold Completed; infer_instance

/-- Multiset of in-flight paths of a worker pool. -/
def busyPathsM (w : Multiset WorkerState) : Multiset String :=
  w.filterMap busyPath

/-- Loop invariant of the pipeline: the input splits into the still-queued
paths, the in-flight paths and the already-processed paths; the results
are exactly the successful uploads of the processed paths; and a worker
can only have exited after the closed queue ran dry. -/
def Inv (env : String → FileEnv) (filepaths : List String) (s : PoolState) : Prop :=
  ∃ processed : Multiset String,
    ((s.queue : Multiset String) + busyPathsM s.workers + processed
        = (filepaths : Multiset String)) ∧
    ((s.results : Multiset NewMediaItem) = processed.filterMap (uploadResult env)) ∧
    (WorkerState.done ∈ s.workers → s.queue = [])

lemma step_take_some {env : String → FileEnv} {s s' : PoolState}
    (h : UploadFilesStep env SchedStep.take s = some s') :
    ∃ fp rest, s.queue = fp :: rest ∧ WorkerState.idle ∈ s.workers ∧
      s'.queue = rest ∧
      s'.workers = WorkerState.busy fp ::ₘ s.workers.erase WorkerState.idle ∧
      s'.results = s.results := by
  simp only [UploadFilesStep] at h
  split at h
  · cases h
  · rename_i fp rest hq
    split at h
    · rename_i hidle
      cases h
      exact ⟨fp, rest, hq, hidle, rfl, rfl, rfl⟩
    · cases h

lemma step_finish_some {env : String → FileEnv} {fp : String} {s s' : PoolState}
    (h : UploadFilesStep env (SchedStep.finish fp) s = some s') :
    WorkerState.busy fp ∈ s.workers ∧ s'.queue = s.queue ∧
      s'.workers = WorkerState.idle ::ₘ s.workers.erase (WorkerState.busy fp) ∧
      s'.results = s.results ++ (uploadResult env fp).toList := by
  simp only [UploadFilesStep] at h
  split at h
  · rename_i hbusy
    cases h
    exact ⟨hbusy, rfl, rfl, rfl⟩
  · cases h

lemma step_exit_some {env : String → FileEnv} {s s' : PoolState}
    (h : UploadFilesStep env SchedStep.exitWorker s = some s') :
    s.queue = [] ∧ WorkerState.idle ∈ s.workers ∧ s'.queue = [] ∧
      s'.workers = WorkerState.done ::ₘ s.workers.erase WorkerState.idle ∧
      s'.results = s.results := by
  simp only [UploadFilesStep] at h
  split at h
  · rename_i hq
    split at h
    · rename_i hidle
      cases h
      exact ⟨hq, hidle, hq, rfl, rfl⟩
    · cases h
  · cases h

lemma busyPathsM_erase_idle {w : Multiset WorkerState}
    (h : WorkerState.idle ∈ w) :
    busyPathsM (w.erase WorkerState.idle) = busyPathsM w := by
  conv_rhs => rw [← Multiset.cons_erase h]
  rw [busyPathsM, busyPathsM, Multiset.filterMap_cons_none _ _ rfl]

lemma busyPathsM_erase_busy {w : Multiset WorkerState} {fp : String}
    (h : WorkerState.busy fp ∈ w) :
    busyPathsM w = fp ::ₘ busyPathsM (w.erase (WorkerState.busy fp)) := by
  conv_lhs => rw [← Multiset.cons_erase h]
  rw [busyPathsM, busyPathsM, Multiset.filterMap_cons_some busyPath (WorkerState.busy fp) _ rfl]

lemma busyPathsM_cons_busy (fp : String) (w : Multiset WorkerState) :
    busyPathsM (WorkerState.busy fp ::ₘ w) = fp ::ₘ busyPathsM w := by
  rw [busyPathsM, busyPathsM, Multiset.filterMap_cons_some busyPath (WorkerState.busy fp) _ rfl]

lemma busyPathsM_cons_idle (w : Multiset WorkerState) :
    busyPathsM (WorkerState.idle ::ₘ w) = busyPathsM w := by
  rw [busyPathsM, busyPathsM, Multiset.filterMap_cons_none _ _ rfl]

lemma busyPathsM_cons_done (w : Multiset WorkerState) :
    busyPathsM (WorkerState.done ::ₘ w) = busyPathsM w := by
  rw [busyPathsM, busyPathsM, Multiset.filterMap_cons_none _ _ rfl]

lemma inv_init (env : String → FileEnv) (filepaths : List String) :
    Inv env filepaths (UploadFilesInit filepaths) := by
  refine ⟨0, ?_, ?_, ?_⟩
  · have hb : busyPathsM (Multiset.replicate uploadConcurrency WorkerState.idle) = 0 := by
      decide
    simp [UploadFilesInit, hb]
  · simp [UploadFilesInit]
  · intro hmem
    have := Multiset.eq_of_mem_replicate hmem
    cases this

lemma inv_step {env : String → FileEnv} {fps : List String} {st : SchedStep}
    {s s' : PoolState} (hstep : UploadFilesStep env st s = some s')
    (hinv : Inv env fps s) : Inv env fps s' := by
  obtain ⟨processed, hq, hr, hdone⟩ := hinv
  cases st with
  | take =>
    obtain ⟨fp, rest, hqe, hidle, hq', hw', hres'⟩ := step_take_some hstep
    refine ⟨processed, ?_, ?_, ?_⟩
    · rw [hq', hw', busyPathsM_cons_busy, busyPathsM_erase_idle hidle]
      rw [hqe] at hq
      rw [← hq, ← Multiset.cons_coe]
      simp only [← Multiset.singleton_add]
      abel
    · rw [hres']
      exact hr
    · intro hmem
      rw [hw'] at hmem
      rcases Multiset.mem_cons.mp hmem with hcase | hcase
      · cases hcase
      · have : WorkerState.done ∈ s.workers := Multiset.mem_of_mem_erase hcase
        have : s.queue = [] := hdone this
        rw [hqe] at this
        cases this
  | finish fp =>
    obtain ⟨hbusy, hq', hw', hres'⟩ := step_finish_some hstep
    refine ⟨fp ::ₘ processed, ?_, ?_, ?_⟩
    · rw [hq', hw', busyPathsM_cons_idle]
      rw [busyPathsM_erase_busy hbusy] at hq
      rw [← hq]
      simp only [← Multiset.singleton_add]
      abel
    · rw [hres']
      cases hu : uploadResult env fp with
      | none =>
        rw [Multiset.filterMap_cons_none _ _ hu, ← hr]
        simp [hu]
      | some item =>
        rw [Multiset.filterMap_cons_some _ _ _ hu, ← hr]
        have : ((s.results ++ [item] : List NewMediaItem) : Multiset NewMediaItem)
            = item ::ₘ (s.results : Multiset NewMediaItem) := by
          rw [← Multiset.coe_add]
          simp only [← Multiset.singleton_add]
          abel
        simp only [hu, Option.toList_some]
        exact this
    · intro hmem
      rw [hw'] at hmem
      rcases Multiset.mem_cons.mp hmem with hcase | hcase
      · cases hcase
      · rw [hq']
        exact hdone (Multiset.mem_of_mem_erase hcase)
  | exitWorker =>
    obtain ⟨hqe, hidle, hq', hw', hres'⟩ := step_exit_some hstep
    refine ⟨processed, ?_, ?_, fun _ => hq'⟩
    · rw [hq', hw', busyPathsM_cons_done, busyPathsM_erase_idle hidle, ← hqe]
      exact hq
    · rw [hres']
      exact hr

lemma inv_run {env : String → FileEnv} {fps : List String} {steps : List SchedStep}
    {s s' : PoolState} (hrun : UploadFilesRun env steps s = some s')
    (hinv : Inv env fps s) : Inv env fps s' := by
  induction steps generalizing s with
  | nil =>
    simp only [UploadFilesRun] at hrun
    cases hrun
    exact hinv
  | cons st rest ih =>
    simp only [UploadFilesRun] at hrun
    cases hstep : UploadFilesStep env st s with
    | none => rw [hstep] at hrun; cases hrun
    | some s1 =>
      rw [hstep] at hrun
      exact ih hrun (inv_step hstep hinv)

lemma step_card {env : String → FileEnv} {st : SchedStep} {s s' : PoolState}
    (hstep : UploadFilesStep env st s = some s') :
    Multiset.card s'.workers = Multiset.card s.workers := by
  cases st with
  | take =>
    obtain ⟨fp, rest, _, hidle, _, hw', _⟩ := step_take_some hstep
    rw [hw', Multiset.card_cons, Multiset.card_erase_add_one hidle]
  | finish fp =>
    obtain ⟨hbusy, _, hw', _⟩ := step_finish_some hstep
    rw [hw', Multiset.card_cons, Multiset.card_erase_add_one hbusy]
  | exitWorker =>
    obtain ⟨_, hidle, _, hw', _⟩ := step_exit_some hstep
    rw [hw', Multiset.card_cons, Multiset.card_erase_add_one hidle]

lemma run_card {env : String → FileEnv} {steps : List SchedStep} {s s' : PoolState}
    (hrun : UploadFilesRun env steps s = some s') :
    Multiset.card s'.workers = Multiset.card s.workers := by
  induction steps generalizing s with
  | nil =>
    simp only [UploadFilesRun] at hrun
    cases hrun
    rfl
  | cons st rest ih =>
    simp only [UploadFilesRun] at hrun
    cases hstep : UploadFilesStep env st s with
    | none => rw [hstep] at hrun; cases hrun
    | some s1 =>
      rw [hstep] at hrun
      rw [ih hrun, step_card hstep]

lemma run_card_init {env : String → FileEnv} {fps : List String}
    {steps : List SchedStep} {s : PoolState}
    (hrun : UploadFilesRun env steps (UploadFilesInit fps) = some s) :
    Multiset.card s.workers = uploadConcurrency := by
  rw [run_card hrun]
  simp [UploadFilesInit]

lemma completed_busyPathsM {s : PoolState} (hc : Completed s) :
    busyPathsM s.workers = 0 := by
  rw [Multiset.eq_zero_iff_forall_not_mem]
  intro fp hfp
  obtain ⟨w, hw, hbp⟩ := (Multiset.mem_filterMap _ _).mp hfp
  rw [hc w hw] at hbp
  cases hbp

/-- Core result of the pipeline semantics: every completed run of
`UploadFiles` collects, as a multiset, exactly the staged items of the
successful `UploadFile` calls over the input list. -/
lemma run_results {env : String → FileEnv} {fps : List String}
    {steps : List SchedStep} {s : PoolState}
    (hrun : UploadFilesRun env steps (UploadFilesInit fps) = some s)
    (hc : Completed s) :
    (s.results : Multiset NewMediaItem)
      = ((fps.filterMap (uploadResult env) : List NewMediaItem) : Multiset NewMediaItem) := by
  obtain ⟨processed, hq, hr, hdone⟩ := inv_run hrun (inv_init env fps)
  have hcard : Multiset.card s.workers = uploadConcurrency := run_card_init hrun
  have hne : s.workers ≠ 0 := by
    intro h0
    rw [h0] at hcard
    simp [uploadConcurrency] at hcard
  obtain ⟨w, hw⟩ := Multiset.exists_mem_of_ne_zero hne
  have hq0 : s.queue = [] := hdone (by rwa [hc w hw] at hw)
  have hb0 : busyPathsM s.workers = 0 := completed_busyPathsM hc
  rw [hq0, hb0] at hq
  simp only [Multiset.coe_nil, zero_add, add_zero] at hq
  rw [hr, hq, Multiset.filterMap_coe]

/-- Go `path.Base` keeps exactly the final path component: for any
leading directory part and any nonempty slash-free final component, the base of
`dir ++ "/" ++ name` is `name`, whatever the directory depth. -/
lemma pathBase_dir_slash (dir name : String) (hne : name ≠ "")
    (hns : ∀ c ∈ name.data, c ≠ '/') :
    pathBase (dir ++ "/" ++ name) = name := by
  have hdata : (dir ++ "/" ++ name).data = dir.data ++ '/' :: name.data := by
    simp
  have hnd : name.data ≠ [] := by
    intro h
    exact hne (String.ext (by simp [h]))
  obtain ⟨c, cs, hrev⟩ : ∃ c cs, name.data.reverse = c :: cs := by
    cases hrr : name.data.reverse with
    | nil => exact absurd (List.reverse_eq_nil_iff.mp hrr) hnd
    | cons c cs => exact ⟨c, cs, rfl⟩
  have hcmem : c ∈ name.data := by
    have : c ∈ name.data.reverse := by
      rw [hrev]
      exact List.mem_cons_self c cs
    exact List.mem_reverse.mp this
  have hcsl : c ≠ '/' := hns c hcmem
  have hsne : dir ++ "/" ++ name ≠ "" := by
    intro h
    have hd := congrArg String.data h
    rw [hdata] at hd
    simp at hd
  have hrevall : (dir ++ "/" ++ name).data.reverse
      = (c :: cs) ++ '/' :: dir.data.reverse := by
    rw [hdata]
    simp [List.reverse_append, hrev]
  have hdrop : (dir ++ "/" ++ name).data.reverse.dropWhile (fun ch => ch = '/')
      = (c :: cs) ++ '/' :: dir.data.reverse := by
    rw [hrevall, List.cons_append, List.dropWhile_cons]
    simp [hcsl]
  have htake : ((c :: cs) ++ '/' :: dir.data.reverse).takeWhile (fun ch => ch ≠ '/')
      = c :: cs := by
    have hall : ∀ a ∈ (c :: cs), (fun ch => decide (ch ≠ '/')) a = true := by
      intro a ha
      have : a ∈ name.data := List.mem_reverse.mp (hrev ▸ ha)
      simp [hns a this]
    rw [List.takeWhile_append_of_pos hall, List.takeWhile_cons]
    simp
  simp only [pathBase, if_neg hsne, hdrop]
  rw [htake, ← hrev]
  simp only [List.reverse_reverse]
  rw [if_neg hnd]

lemma card_busyPathsM_le (w : Multiset WorkerState) :
    Multiset.card (busyPathsM w) ≤ Multiset.card w := by
  refine Multiset.induction_on w ?_ ?_
  · simp [busyPathsM]
  · intro a t ih
    cases ha : busyPath a with
    | none =>
      rw [busyPathsM, Multiset.filterMap_cons_none _ _ ha, Multiset.card_cons]
      exact le_trans ih (Nat.le_succ _)
    | some fp =>
      rw [busyPathsM, Multiset.filterMap_cons_some busyPath _ _ ha,
        Multiset.card_cons, Multiset.card_cons]
      exact Nat.succ_le_succ ih

lemma find_eq_some {items : List NewMediaItem} {tok : String} {m : NewMediaItem}
    (h : findMediaItemByUploadToken items tok = some m) :
    m ∈ items ∧ m.simpleMediaItem.uploadToken = tok := by
  induction items with
  | nil => cases h
  | cons x rest ih =>
    rw [findMediaItemByUploadToken] at h
    by_cases hx : x.simpleMediaItem.uploadToken = tok
    · rw [if_pos hx] at h
      cases h
      exact ⟨List.mem_cons_self _ _, hx⟩
    · rw [if_neg hx] at h
      obtain ⟨hm, ht⟩ := ih h
      exact ⟨List.mem_cons_of_mem x hm, ht⟩

lemma find_eq_none {items : List NewMediaItem} {tok : String}
    (h : findMediaItemByUploadToken items tok = none) :
    ∀ m ∈ items, m.simpleMediaItem.uploadToken ≠ tok := by
  induction items with
  | nil => intro m hm; cases hm
  | cons x rest ih =>
    rw [findMediaItemByUploadToken] at h
    by_cases hx : x.simpleMediaItem.uploadToken = tok
    · rw [if_pos hx] at h
      cases h
    · rw [if_neg hx] at h
      intro m hm
      rcases List.mem_cons.mp hm with hcase | hcase
      · rw [hcase]
        exact hx
      · exact ih h m hcase

lemma find_ne_none_of_mem {items : List NewMediaItem} {tok : String}
    {m : NewMediaItem} (hm : m ∈ items)
    (ht : m.simpleMediaItem.uploadToken = tok) :
    findMediaItemByUploadToken items tok ≠ none := by
  intro hnone
  exact find_eq_none hnone m hm ht

lemma find_first (pre : List NewMediaItem) (m : NewMediaItem)
    (post : List NewMediaItem) (tok : String)
    (hpre : ∀ x ∈ pre, x.simpleMediaItem.uploadToken ≠ tok)
    (hm : m.simpleMediaItem.uploadToken = tok) :
    findMediaItemByUploadToken (pre ++ m :: post) tok = some m := by
  induction pre with
  | nil =>
    rw [List.nil_append, findMediaItemByUploadToken, if_pos hm]
  | cons x rest ih =>
    rw [List.cons_append, findMediaItemByUploadToken,
      if_neg (hpre x (List.mem_cons_self x rest))]
    exact ih fun y hy => hpre y (List.mem_cons_of_mem x hy)

/-- Environment in which every step of an upload succeeds with body
`token-1`. -/
def allSuccessEnv : FileEnv :=
  { openErr := none, reqErr := none, doErr := none, status := 200
    readErr := none, body := "token-1" }

/-- Every path uploads successfully. -/
def successEnvFun : String → FileEnv := fun _ => allSuccessEnv

/-- Environment in which `os.Open` fails. -/
def openFailEnv : FileEnv :=
  { openErr := some "no such file or directory", reqErr := none, doErr := none
    status := 0, readErr := none, body := "" }

/-- Every path fails to upload (the file cannot be opened). -/
def failEnvFun : String → FileEnv := fun _ => openFailEnv

/-- Schedule of a run over input `["a", "a"]`: one worker uploads both
occurrences, then all three workers exit. -/
def dupSched : List SchedStep :=
  [SchedStep.take, SchedStep.finish "a", SchedStep.take, SchedStep.finish "a",
   SchedStep.exitWorker, SchedStep.exitWorker, SchedStep.exitWorker]

/-- Final state of the `dupSched` run over `["a", "a"]`. -/
def dupFinal : PoolState :=
  { queue := []
    workers := (([WorkerState.done, WorkerState.done, WorkerState.done] :
      List WorkerState) : Multiset WorkerState)
    results := [{ description := "a", simpleMediaItem := { uploadToken := "token-1" } },
                { description := "a", simpleMediaItem := { uploadToken := "token-1" } }] }

/-- Schedule of a run over input `["a", "b"]`. -/
def abSched : List SchedStep :=
  [SchedStep.take, SchedStep.finish "a", SchedStep.take, SchedStep.finish "b",
   SchedStep.exitWorker, SchedStep.exitWorker, SchedStep.exitWorker]

/-- Final state of the `abSched` run over `["a", "b"]`. -/
def abFinal : PoolState :=
  { queue := []
    workers := (([WorkerState.done, WorkerState.done, WorkerState.done] :
      List WorkerState) : Multiset WorkerState)
    results := [{ description := "a", simpleMediaItem := { uploadToken := "token-1" } },
                { description := "b", simpleMediaItem := { uploadToken := "token-1" } }] }

/-- Schedule of a run over input `["a"]` where the upload fails. -/
def failSched : List SchedStep :=
  [SchedStep.take, SchedStep.finish "a",
   SchedStep.exitWorker, SchedStep.exitWorker, SchedStep.exitWorker]

/-- Final state of the `failSched` run over `["a"]` with `failEnvFun`. -/
def failFinal : PoolState :=
  { queue := []
    workers := (([WorkerState.done, WorkerState.done, WorkerState.done] :
      List WorkerState) : Multiset WorkerState)
    results := [] }

/-- C1, counterexample: on the input list `["a", "a"]` (the same path
queued twice) with every upload succeeding, a completed run of
`UploadFiles` returns the staged item of `"a"` twice, so the returned
sequence does contain duplicates and the doubly-successful path
contributes two items, not one. -/
theorem claim_C1_counterexample :
    UploadFilesRun successEnvFun dupSched (UploadFilesInit ["a", "a"]) = some dupFinal ∧
    Completed dupFinal ∧
    ¬ dupFinal.results.Nodup ∧
    dupFinal.results.count
      { description := "a", simpleMediaItem := { uploadToken := "token-1" } } = 2 := by
  decide

/-- C1, amended: for every input list, environment and completed schedule,
`UploadFiles` returns a sequence whose multiset of items is exactly the
multiset of items produced by the successful `UploadFile` calls over the
input — each successful input occurrence contributes exactly one item, the
length is at most the input length, and there are no phantom items; the
sequence is duplicate-free whenever the successful uploads of the input
produce pairwise distinct items (for distinct input paths and distinct
returned tokens in particular). -/
theorem claim_C1_amended (env : String → FileEnv) (fps : List String)
    (steps : List SchedStep) (s : PoolState)
    (hrun : UploadFilesRun env steps (UploadFilesInit fps) = some s)
    (hc : Completed s) :
    (s.results : Multiset NewMediaItem)
        = ((fps.filterMap (uploadResult env) : List NewMediaItem) : Multiset NewMediaItem) ∧
    s.results.length ≤ fps.length ∧
    ((fps.filterMap (uploadResult env)).Nodup → s.results.Nodup) := by
  have h := run_results hrun hc
  refine ⟨h, ?_, ?_⟩
  · have hlen : s.results.length = (fps.filterMap (uploadResult env)).length := by
      have hcards := congrArg Multiset.card h
      simpa [Multiset.coe_card] using hcards
    rw [hlen]
    exact List.length_filterMap_le _ _
  · intro hnd
    have hmnd : (s.results : Multiset NewMediaItem).Nodup := by
      rw [h]
      exact Multiset.coe_nodup.mpr hnd
    exact Multiset.coe_nodup.mp hmnd

/-- C1, witness: the amended statement evaluated on the completed run of
`["a", "b"]` with all uploads succeeding. -/
theorem claim_C1_witness :
    (abFinal.results : Multiset NewMediaItem)
        = ((["a", "b"].filterMap (uploadResult successEnvFun) : List NewMediaItem) :
            Multiset NewMediaItem) ∧
    abFinal.results.length ≤ (["a", "b"] : List String).length ∧
    ((["a", "b"].filterMap (uploadResult successEnvFun)).Nodup → abFinal.results.Nodup) :=
  claim_C1_amended successEnvFun ["a", "b"] abSched abFinal (by decide) (by decide)

/-- C2: in every state reachable by any schedule of any input list, the
number of in-flight `UploadFile` calls is bounded by the pool size, the
pool always holds exactly `uploadConcurrency` workers, and that bound is
the fixed constant 3 — independent of the input list (and no CPU count
enters the semantics at all). -/
theorem claim_C2 (env : String → FileEnv) (fps : List String)
    (steps : List SchedStep) (s : PoolState)
    (hrun : UploadFilesRun env steps (UploadFilesInit fps) = some s) :
    inFlight s ≤ uploadConcurrency ∧
    Multiset.card s.workers = uploadConcurrency ∧
    uploadConcurrency = 3 := by
  have hcard := run_card_init hrun
  refine ⟨?_, hcard, rfl⟩
  have hle := card_busyPathsM_le s.workers
  rw [hcard] at hle
  exact hle

/-- C2, witness: the bound evaluated at the initial state of the empty
input (the empty schedule reaches it). -/
theorem claim_C2_witness :
    inFlight (UploadFilesInit []) ≤ uploadConcurrency ∧
    Multiset.card (UploadFilesInit []).workers = uploadConcurrency ∧
    uploadConcurrency = 3 :=
  claim_C2 successEnvFun [] [] (UploadFilesInit []) rfl

/-- C5: for every completed run in which every input path fails to upload
(in particular for the empty input), `UploadFiles` returns the empty
sequence; the operation itself returns normally (its result type carries
no error at all, mirroring the error-free Go signature). -/
theorem claim_C5 (env : String → FileEnv) (fps : List String)
    (steps : List SchedStep) (s : PoolState)
    (hrun : UploadFilesRun env steps (UploadFilesInit fps) = some s)
    (hc : Completed s)
    (hfail : ∀ fp ∈ fps, uploadResult env fp = none) :
    s.results = [] := by
  have h := run_results hrun hc
  have hnil : fps.filterMap (uploadResult env) = [] :=
    List.filterMap_eq_nil_iff.mpr hfail
  rw [hnil] at h
  have hzero : (s.results : Multiset NewMediaItem) = 0 := by
    simpa using h
  exact (Multiset.coe_eq_zero _).mp hzero

/-- C5, witness: the all-failures statement evaluated on a completed run
of `["a"]` in which the file cannot be opened. -/
theorem claim_C5_witness : failFinal.results = [] :=
  claim_C5 failEnvFun ["a"] failSched failFinal (by decide) (by decide) (by decide)

/-- Two staged items with distinct tokens, as submitted to `Append`. -/
def itemsW : List NewMediaItem :=
  [{ description := "d1", simpleMediaItem := { uploadToken := "T1" } },
   { description := "d2", simpleMediaItem := { uploadToken := "T2" } }]

/-- A per-item commit result with status code 0. -/
def resultOkW : NewMediaItemResult :=
  { uploadToken := "T1", status := { code := 0, message := "OK" } }

/-- A failing per-item commit result whose token matches a submitted item. -/
def resultSkipW : NewMediaItemResult :=
  { uploadToken := "T2", status := { code := 5, message := "quota exceeded" } }

/-- A failing per-item commit result whose token matches no submitted item. -/
def resultUnknownW : NewMediaItemResult :=
  { uploadToken := "T9", status := { code := 3, message := "invalid token" } }

/-- A service double whose single batch-create call succeeds with the
three per-item results above. -/
def svcOkW : BatchCreateMediaItemsRequest → Except String BatchCreateMediaItemsResponse :=
  fun _ => Except.ok { newMediaItemResults := [resultOkW, resultSkipW, resultUnknownW] }

/-- C3: `Append` returns an error exactly when the single remote
batch-create call itself fails, and then returns that very error; when
the call succeeds, no per-item result — whatever its status codes — makes
`Append` return an error. -/
theorem claim_C3
    (svc : BatchCreateMediaItemsRequest → Except String BatchCreateMediaItemsResponse)
    (album : Option Album) (mediaItems : List NewMediaItem) (e : String) :
    (Append svc album mediaItems).1 = some e ↔
      svc (appendRequest album mediaItems) = Except.error e := by
  cases hsvc : svc (appendRequest album mediaItems) <;> simp [Append, hsvc]

/-- C4: the per-item reconciliation of `Append`: a status code 0 produces
no log line; a non-zero code whose token is found among the submitted
items produces the "Skipped" line naming that item's description together
with the result's message and code, and the named item is a submitted item
whose token equals the result's token; a non-zero code whose token matches
no submitted item produces the unattributed "Error while adding files"
line with the raw message and code; and on a successful call `Append`
emits exactly these lines, one per result, in result order. -/
theorem claim_C4 :
    (∀ (items : List NewMediaItem) (r : NewMediaItemResult),
      r.status.code = 0 → appendItemLog items r = none) ∧
    (∀ (items : List NewMediaItem) (r : NewMediaItemResult) (m : NewMediaItem),
      r.status.code ≠ 0 →
      findMediaItemByUploadToken items r.uploadToken = some m →
      appendItemLog items r = some ("Skipped " ++ m.description ++ ": "
          ++ r.status.message ++ " (" ++ toString r.status.code ++ ")") ∧
        m ∈ items ∧ m.simpleMediaItem.uploadToken = r.uploadToken) ∧
    (∀ (items : List NewMediaItem) (r : NewMediaItemResult),
      r.status.code ≠ 0 →
      findMediaItemByUploadToken items r.uploadToken = none →
      appendItemLog items r = some ("Error while adding files: "
          ++ r.status.message ++ " (" ++ toString r.status.code ++ ")") ∧
        ∀ m ∈ items, m.simpleMediaItem.uploadToken ≠ r.uploadToken) ∧
    (∀ (svc : BatchCreateMediaItemsRequest →
        Except String BatchCreateMediaItemsResponse)
      (album : Option Album) (items : List NewMediaItem)
      (batch : BatchCreateMediaItemsResponse),
      svc (appendRequest album items) = Except.ok batch →
      (Append svc album items).2
        = batch.newMediaItemResults.filterMap (appendItemLog items)) := by
  refine ⟨?_, ?_, ?_, ?_⟩
  · intro items r h
    simp [appendItemLog, h]
  · intro items r m hc hf
    obtain ⟨hm, ht⟩ := find_eq_some hf
    exact ⟨by simp [appendItemLog, hc, hf], hm, ht⟩
  · intro items r hc hf
    exact ⟨by simp [appendItemLog, hc, hf], find_eq_none hf⟩
  · intro svc album items batch hsvc
    simp [Append, hsvc]

/-- C4, witness: the reconciliation rules evaluated on two submitted items
and the three concrete results (code 0, a matched failure on token `T2`,
an unmatched failure on token `T9`). -/
theorem claim_C4_witness :
    appendItemLog itemsW resultOkW = none ∧
    (appendItemLog itemsW resultSkipW = some ("Skipped " ++ "d2" ++ ": "
        ++ "quota exceeded" ++ " (" ++ toString (5 : Int) ++ ")") ∧
      ({ description := "d2", simpleMediaItem := { uploadToken := "T2" } } :
        NewMediaItem) ∈ itemsW ∧
      ({ description := "d2", simpleMediaItem := { uploadToken := "T2" } } :
        NewMediaItem).simpleMediaItem.uploadToken = resultSkipW.uploadToken) ∧
    (appendItemLog itemsW resultUnknownW = some ("Error while adding files: "
        ++ "invalid token" ++ " (" ++ toString (3 : Int) ++ ")") ∧
      ∀ m ∈ itemsW, m.simpleMediaItem.uploadToken ≠ resultUnknownW.uploadToken) ∧
    (Append svcOkW none itemsW).2
      = [resultOkW, resultSkipW, resultUnknownW].filterMap (appendItemLog itemsW) :=
  ⟨claim_C4.1 itemsW resultOkW rfl,
   claim_C4.2.1 itemsW resultSkipW
     { description := "d2", simpleMediaItem := { uploadToken := "T2" } }
     (by decide) (by decide),
   claim_C4.2.2.1 itemsW resultUnknownW (by decide) (by decide),
   claim_C4.2.2.2 svcOkW none itemsW
     { newMediaItemResults := [resultOkW, resultSkipW, resultUnknownW] } rfl⟩

/-- C10: the commit-reconciliation lookup never misses a token that is
present among the submitted items, and when several submitted items carry
the same token it returns the first matching item in submission order. -/
theorem claim_C10 :
    (∀ (items : List NewMediaItem) (tok : String),
      (∃ m ∈ items, m.simpleMediaItem.uploadToken = tok) →
      findMediaItemByUploadToken items tok ≠ none) ∧
    (∀ (pre : List NewMediaItem) (m : NewMediaItem) (post : List NewMediaItem)
      (tok : String),
      (∀ x ∈ pre, x.simpleMediaItem.uploadToken ≠ tok) →
      m.simpleMediaItem.uploadToken = tok →
      findMediaItemByUploadToken (pre ++ m :: post) tok = some m) := by
  refine ⟨?_, ?_⟩
  · intro items tok hmem
    obtain ⟨m, hm, ht⟩ := hmem
    exact find_ne_none_of_mem hm ht
  · intro pre m post tok hpre hm
    exact find_first pre m post tok hpre hm

/-- C10, witness: with two submitted items sharing token `T` behind a
non-matching first item, the lookup returns the earlier of the two
matching items and is not `none`. -/
theorem claim_C10_witness :
    findMediaItemByUploadToken
      [{ description := "d1", simpleMediaItem := { uploadToken := "T" } },
       { description := "d2", simpleMediaItem := { uploadToken := "T" } }] "T" ≠ none ∧
    findMediaItemByUploadToken
      ([{ description := "d0", simpleMediaItem := { uploadToken := "S" } }] ++
        ({ description := "d1", simpleMediaItem := { uploadToken := "T" } } : NewMediaItem) ::
        [{ description := "d2", simpleMediaItem := { uploadToken := "T" } }]) "T"
      = some { description := "d1", simpleMediaItem := { uploadToken := "T" } } :=
  ⟨claim_C10.1
    [{ description := "d1", simpleMediaItem := { uploadToken := "T" } },
     { description := "d2", simpleMediaItem := { uploadToken := "T" } }] "T"
    ⟨{ description := "d1", simpleMediaItem := { uploadToken := "T" } }, by decide, rfl⟩,
   claim_C10.2
    [{ description := "d0", simpleMediaItem := { uploadToken := "S" } }]
    { description := "d1", simpleMediaItem := { uploadToken := "T" } }
    [{ description := "d2", simpleMediaItem := { uploadToken := "T" } }] "T"
    (by decide) rfl⟩

/-- Environment in which `http.NewRequest` fails. -/
def reqFailEnv : FileEnv :=
  { openErr := none, reqErr := some "bad url", doErr := none
    status := 0, readErr := none, body := "" }

/-- Environment in which the transport (`client.Do`) fails. -/
def doFailEnv : FileEnv :=
  { openErr := none, reqErr := none, doErr := some "connection refused"
    status := 0, readErr := none, body := "" }

/-- Environment in which reading the response body fails. -/
def readFailEnv : FileEnv :=
  { openErr := none, reqErr := none, doErr := none
    status := 200, readErr := some "unexpected EOF", body := "" }

/-- Environment in which the service answers with a non-200 status. -/
def badStatusEnv : FileEnv :=
  { openErr := none, reqErr := none, doErr := none
    status := 403, readErr := none, body := "Forbidden" }

lemma exists_mid2 (a fp x y : String) :
    ∃ u v, a ++ fp ++ x ++ y = u ++ fp ++ v :=
  ⟨a, x ++ y, by simp [String.append_assoc]⟩

lemma exists_mid4 (a fp x y z w : String) :
    ∃ u v, a ++ fp ++ x ++ y ++ z ++ w = u ++ fp ++ v :=
  ⟨a, x ++ y ++ z ++ w, by simp [String.append_assoc]⟩

/-- C6: `UploadFile` returns an error value (never a fatal abort — the model is
a total function into error values) in exactly the five cases: open
failure, request-construction failure, transport failure, body-read
failure, non-200 status; each case carries its own distinct message format
with the triggering file path embedded in the message, and the non-200
message carries both the status code and the response body. -/
theorem claim_C6 :
    (∀ (env : FileEnv) (fp e : String), env.openErr = some e →
      (UploadFile env fp).err
        = some ("Could not open file " ++ fp ++ ": " ++ e)) ∧
    (∀ (env : FileEnv) (fp e : String), env.openErr = none → env.reqErr = some e →
      (UploadFile env fp).err
        = some ("Could not create a request for uploading file " ++ fp ++ ": " ++ e)) ∧
    (∀ (env : FileEnv) (fp e : String), env.openErr = none → env.reqErr = none →
      env.doErr = some e →
      (UploadFile env fp).err
        = some ("Could not send a request for uploading file " ++ fp ++ ": " ++ e)) ∧
    (∀ (env : FileEnv) (fp e : String), env.openErr = none → env.reqErr = none →
      env.doErr = none → env.readErr = some e →
      (UploadFile env fp).err
        = some ("Could not read the response body while uploading file " ++ fp
            ++ ": status=" ++ toString env.status ++ ", " ++ e)) ∧
    (∀ (env : FileEnv) (fp : String), env.openErr = none → env.reqErr = none →
      env.doErr = none → env.readErr = none → env.status ≠ 200 →
      (UploadFile env fp).err
        = some ("Could not upload file " ++ fp ++ ": status="
            ++ toString env.status ++ ", body=" ++ env.body)) ∧
    (∀ (env : FileEnv) (fp e : String), (UploadFile env fp).err = some e →
      ∃ a b, e = a ++ fp ++ b) ∧
    (∀ (env : FileEnv) (fp : String), (UploadFile env fp).err = none ↔
      env.openErr = none ∧ env.reqErr = none ∧ env.doErr = none ∧
      env.readErr = none ∧ env.status = 200) := by
  refine ⟨?_, ?_, ?_, ?_, ?_, ?_, ?_⟩
  · intro env fp e h
    obtain ⟨o, rq, d, st, rd, b⟩ := env
    cases o with
    | none => simp at h
    | some e1 =>
      simp at h
      subst h
      simp [UploadFile]
  · intro env fp e h1 h2
    obtain ⟨o, rq, d, st, rd, b⟩ := env
    cases o with
    | some e1 => simp at h1
    | none =>
      cases rq with
      | none => simp at h2
      | some e1 =>
        simp at h2
        subst h2
        simp [UploadFile]
  · intro env fp e h1 h2 h3
    obtain ⟨o, rq, d, st, rd, b⟩ := env
    cases o with
    | some e1 => simp at h1
    | none =>
      cases rq with
      | some e1 => simp at h2
      | none =>
        cases d with
        | none => simp at h3
        | some e1 =>
          simp at h3
          subst h3
          simp [UploadFile]
  · intro env fp e h1 h2 h3 h4
    obtain ⟨o, rq, d, st, rd, b⟩ := env
    cases o with
    | some e1 => simp at h1
    | none =>
      cases rq with
      | some e1 => simp at h2
      | none =>
        cases d with
        | some e1 => simp at h3
        | none =>
          cases rd with
          | none => simp at h4
          | some e1 =>
            simp at h4
            subst h4
            simp [UploadFile]
  · intro env fp h1 h2 h3 h4 h5
    obtain ⟨o, rq, d, st, rd, b⟩ := env
    cases o with
    | some e1 => simp at h1
    | none =>
      cases rq with
      | some e1 => simp at h2
      | none =>
        cases d with
        | some e1 => simp at h3
        | none =>
          cases rd with
          | some e1 => simp at h4
          | none =>
            simp only [UploadFile]
            rw [if_pos h5]
  · intro env fp e h
    obtain ⟨o, rq, d, st, rd, b⟩ := env
    cases o <;> cases rq <;> cases d <;> cases rd <;> by_cases hst : st = 200 <;>
      simp [UploadFile, hst] at h <;> rw [← h] <;>
      first
        | exact exists_mid2 _ _ _ _
        | exact exists_mid4 _ _ _ _ _ _
  · intro env fp
    obtain ⟨o, rq, d, st, rd, b⟩ := env
    cases o <;> cases rq <;> cases d <;> cases rd <;> by_cases hst : st = 200 <;>
      simp [UploadFile, hst]

/-- C6, witness: the five error cases, the embedded-path property and the
success characterisation evaluated on concrete environments for the file
`p.jpg`. -/
theorem claim_C6_witness :
    (UploadFile openFailEnv "p.jpg").err
      = some ("Could not open file " ++ "p.jpg" ++ ": "
          ++ "no such file or directory") ∧
    (UploadFile reqFailEnv "p.jpg").err
      = some ("Could not create a request for uploading file " ++ "p.jpg"
          ++ ": " ++ "bad url") ∧
    (UploadFile doFailEnv "p.jpg").err
      = some ("Could not send a request for uploading file " ++ "p.jpg"
          ++ ": " ++ "connection refused") ∧
    (UploadFile readFailEnv "p.jpg").err
      = some ("Could not read the response body while uploading file " ++ "p.jpg"
          ++ ": status=" ++ toString readFailEnv.status ++ ", " ++ "unexpected EOF") ∧
    (UploadFile badStatusEnv "p.jpg").err
      = some ("Could not upload file " ++ "p.jpg" ++ ": status="
          ++ toString badStatusEnv.status ++ ", body=" ++ badStatusEnv.body) ∧
    (∃ a b, ("Could not open file " ++ "p.jpg" ++ ": "
        ++ "no such file or directory") = a ++ "p.jpg" ++ b) ∧
    ((UploadFile allSuccessEnv "p.jpg").err = none ↔
      allSuccessEnv.openErr = none ∧ allSuccessEnv.reqErr = none ∧
      allSuccessEnv.doErr = none ∧ allSuccessEnv.readErr = none ∧
      allSuccessEnv.status = 200) :=
  ⟨claim_C6.1 openFailEnv "p.jpg" "no such file or directory" rfl,
   claim_C6.2.1 reqFailEnv "p.jpg" "bad url" rfl rfl,
   claim_C6.2.2.1 doFailEnv "p.jpg" "connection refused" rfl rfl rfl,
   claim_C6.2.2.2.1 readFailEnv "p.jpg" "unexpected EOF" rfl rfl rfl rfl,
   claim_C6.2.2.2.2.1 badStatusEnv "p.jpg" rfl rfl rfl rfl (by decide),
   claim_C6.2.2.2.2.2.1 openFailEnv "p.jpg" _
     (claim_C6.1 openFailEnv "p.jpg" "no such file or directory" rfl),
   claim_C6.2.2.2.2.2.2 allSuccessEnv "p.jpg"⟩

/-- C7: whenever `UploadFile` succeeds, the staged item's description is
exactly Go `path.Base` of the source path and its token is exactly the
response body, unparsed; `path.Base` keeps the final slash-separated
component whatever the directory depth (and is computed identically on
every platform), e.g. `/a/b/photo.jpg` gives `photo.jpg`. -/
theorem claim_C7 :
    (∀ (env : FileEnv) (fp : String) (m : NewMediaItem),
      (UploadFile env fp).item = some m →
      m.description = pathBase fp ∧ m.simpleMediaItem.uploadToken = env.body) ∧
    (∀ dir name : String, name ≠ "" → (∀ c ∈ name.data, c ≠ '/') →
      pathBase (dir ++ "/" ++ name) = name) ∧
    pathBase "/a/b/photo.jpg" = "photo.jpg" := by
  refine ⟨?_, fun dir name h1 h2 => pathBase_dir_slash dir name h1 h2, by decide⟩
  intro env fp m h
  obtain ⟨o, rq, d, st, rd, b⟩ := env
  cases o <;> cases rq <;> cases d <;> cases rd <;> by_cases hst : st = 200 <;>
    simp [UploadFile, hst] at h
  subst h
  exact ⟨rfl, rfl⟩

/-- C7, witness: the successful upload of `/a/b/photo.jpg` in the
all-success environment yields description `photo.jpg` (the base name,
three directories deep) and the exact response body as token. -/
theorem claim_C7_witness :
    (({ description := "photo.jpg", simpleMediaItem := { uploadToken := "token-1" } } :
        NewMediaItem).description = pathBase "/a/b/photo.jpg" ∧
      ({ description := "photo.jpg", simpleMediaItem := { uploadToken := "token-1" } } :
        NewMediaItem).simpleMediaItem.uploadToken = allSuccessEnv.body) ∧
    pathBase ("/a/b" ++ "/" ++ "photo.jpg") = "photo.jpg" :=
  ⟨claim_C7.1 allSuccessEnv "/a/b/photo.jpg"
      { description := "photo.jpg", simpleMediaItem := { uploadToken := "token-1" } }
      (by decide),
   claim_C7.2.1 "/a/b" "photo.jpg" (by decide) (by decide)⟩

/-- C8: on every exit path of `UploadFile`, if the file was opened its
handle is closed before the call returns, and if a response was received
its body is closed before the call returns (the event trace lists
everything that happened before returning). -/
theorem claim_C8 (env : FileEnv) (fp : String) :
    (Event.openFile ∈ (UploadFile env fp).events →
      Event.closeFile ∈ (UploadFile env fp).events) ∧
    (Event.recvResponse ∈ (UploadFile env fp).events →
      Event.closeBody ∈ (UploadFile env fp).events) := by
  obtain ⟨o, rq, d, st, rd, b⟩ := env
  cases o <;> cases rq <;> cases d <;> cases rd <;> by_cases hst : st = 200 <;>
    simp [UploadFile, hst]

/-- C8, witness: in the all-success run both the file handle and the
response body are closed before the call returns. -/
theorem claim_C8_witness :
    Event.closeFile ∈ (UploadFile allSuccessEnv "p.jpg").events ∧
    Event.closeBody ∈ (UploadFile allSuccessEnv "p.jpg").events :=
  ⟨(claim_C8 allSuccessEnv "p.jpg").1 (by decide),
   (claim_C8 allSuccessEnv "p.jpg").2 (by decide)⟩

/-- C9: `UploadFile` always returns exactly one of a present item with no
error or an absent item with a present error — never both, never
neither. -/
theorem claim_C9 (env : FileEnv) (fp : String) :
    ((UploadFile env fp).item.isSome = true ∧ (UploadFile env fp).err = none) ∨
    ((UploadFile env fp).item = none ∧ (UploadFile env fp).err.isSome = true) := by
  obtain ⟨o, rq, d, st, rd, b⟩ := env
  cases o <;> cases rq <;> cases d <;> cases rd <;> by_cases hst : st = 200 <;>
    simp [UploadFile, hst]

end Gpup
